import Mathlib

/-!
Verification of the dian-scrapper repository against its natural-language
specification.

The repository contains three variants of the same scraper:
  * a Go variant (src/unnamed/part_000) with a worker pool, a retry loop
    keyed on the substring "captcha", and an index-map result collector;
  * src/main.js, a sequential puppeteer variant;
  * src/js/main.js, a concurrent puppeteer variant with a result array
    filled by task index and a global timeout implemented with Promise.race.

The definitions below are shallow embeddings of the orchestration code of
those files.  External effects (the browser session, the HTTP challenge
service, the clock) are passed in as oracle functions: the page interaction
of one attempt is an abstract PageOutcome, a poll of the challenge service
is an abstract PollResponse, and so on.  Sleeps and delays only order
events in the source and are not modelled.
-/

/-- Character-list prefix test, used to build the substring test below. -/
def hasPrefixChars : List Char → List Char → Bool
  | [], _ => true
  | _ :: _, [] => false
  | a :: sub, b :: s => a == b && hasPrefixChars sub s

/-- Character-list infix test: does `sub` occur contiguously inside `s`. -/
def hasInfixChars (sub : List Char) : List Char → Bool
  | [] => hasPrefixChars sub []
  | b :: rest => hasPrefixChars sub (b :: rest) || hasInfixChars sub rest

/-- Embedding of Go strings.Contains (and of the JavaScript
String.prototype.includes): `strContains s sub` is true when `sub` occurs
as a contiguous substring of `s`. -/
def strContains (s sub : String) : Bool :=
  hasInfixChars sub.data s.data

/-- Embedding of the Go `Result` struct of src/unnamed/part_000 (the
Screenshot and ProcessingTime fields are omitted: no claim mentions them
and ProcessingTime is wall-clock time).  Field defaults give the Go zero
value of the struct. -/
structure GoResult where
  cedula : String := ""
  primerApellido : String := ""
  segundoApellido : String := ""
  primerNombre : String := ""
  segundoNombre : String := ""
  estado : String := ""
  attempts : Nat := 0
  error : String := ""
  deriving Repr, DecidableEq

/-- The Go zero value of `GoResult`, the initial content of every slot of
the `results` array made by `ProcessCedulas`. -/
def zeroResult : GoResult := {}

instance : Inhabited GoResult := ⟨zeroResult⟩

/-- Oracle describing what the browser session does during one attempt of
`processCedula` in src/unnamed/part_000.  Each constructor corresponds to
one early-return branch of the source (or to the success path), carrying
the free-text message the source would interpolate. -/
inductive PageOutcome where
  | navError (msg : String)
  | captchaCaptureError (msg : String)
  | captchaSolveError (msg : String)
  | captchaInputError (msg : String)
  | searchButtonError (msg : String)
  | siteError (msg : String)
  | extractError (msg : String)
  | success (primerApellido segundoApellido primerNombre otrosNombres estado : String)
  deriving Repr, DecidableEq

/-- Embedding of `processCedula` of src/unnamed/part_000: given the page
interaction outcome of this attempt, build the `Result`.  Every branch of
the source sets `Cedula` and `Attempts`; each error branch sets `Estado`
to "Error" and `Error` to the message the source formats (the site error
branch stores the raw site message). -/
def processCedula (cedula : String) (attempt : Nat) (o : PageOutcome) : GoResult :=
  let base : GoResult := { cedula := cedula, attempts := attempt }
  match o with
  | .navError m => { base with error := "Error al navegar: " ++ m, estado := "Error" }
  | .captchaCaptureError m => { base with error := "Error con captcha: " ++ m, estado := "Error" }
  | .captchaSolveError m => { base with error := "Error resolviendo captcha: " ++ m, estado := "Error" }
  | .captchaInputError m => { base with error := "Error con captcha: " ++ m, estado := "Error" }
  | .searchButtonError m => { base with error := "Error en botón búsqueda: " ++ m, estado := "Error" }
  | .siteError m => { base with error := m, estado := "Error" }
  | .extractError m => { base with error := "Error extrayendo datos: " ++ m, estado := "Error" }
  | .success pa sa pn otros est =>
      { base with primerApellido := pa, segundoApellido := sa,
                  primerNombre := pn, segundoNombre := otros, estado := est }

/-- Embedding of the per-cedula retry loop of the Go `worker`
(src/unnamed/part_000 lines 218-227):

  for attempt := 1; attempt <= MaxRetries; attempt++ \x7b
    result = s.processCedula(cedula, browserCtx, attempt)
    if result.Error == "" || !strings.Contains(result.Error, "captcha") \x7b break \x7d
    time.Sleep(RetryDelay)
  \x7d

`fuel` is the number of attempts still allowed; `attempt` is the current
attempt number.  With fuel 0 the loop body never runs and `result` keeps
the Go zero value.  On the last allowed attempt the loop exits with that
attempt's result whether or not its error is captcha-classified, exactly
as the source does.  `outcomes a` is the page interaction outcome the
session would produce on attempt `a`. -/
def workerRetry (outcomes : Nat → PageOutcome) (cedula : String) : Nat → Nat → GoResult
  | _, 0 => zeroResult
  | attempt, 1 => processCedula cedula attempt (outcomes attempt)
  | attempt, fuel + 2 =>
      let r := processCedula cedula attempt (outcomes attempt)
      if r.error = "" ∨ strContains r.error "captcha" = false then r
      else workerRetry outcomes cedula (attempt + 1) (fuel + 1)

/-- The whole retry loop of the Go worker for one cedula: attempts start
at 1 and at most `maxRetries` attempts are made. -/
def processWithRetries (outcomes : Nat → PageOutcome) (cedula : String) (maxRetries : Nat) : GoResult :=
  workerRetry outcomes cedula 1 maxRetries

/-- Every branch of `processCedula` records the attempt number it was
called with. -/
theorem processCedula_attempts (c : String) (a : Nat) (o : PageOutcome) :
    (processCedula c a o).attempts = a := by
  cases o <;> rfl

/-- Every branch of `processCedula` records the cedula it was called
with. -/
theorem processCedula_cedula (c : String) (a : Nat) (o : PageOutcome) :
    (processCedula c a o).cedula = c := by
  cases o <;> rfl

/-- With at least one attempt allowed, the retry loop always returns the
result of some attempt in the allowed window. -/
theorem workerRetry_eq_processCedula (o : Nat → PageOutcome) (c : String) :
    ∀ (fuel attempt : Nat), 1 ≤ fuel →
      ∃ a, attempt ≤ a ∧ a ≤ attempt + fuel - 1 ∧
        workerRetry o c attempt fuel = processCedula c a (o a)
  | 1, attempt, _ => ⟨attempt, Nat.le_refl _, by omega, rfl⟩
  | fuel + 2, attempt, _ => by
      rw [workerRetry]
      by_cases hb : (processCedula c attempt (o attempt)).error = "" ∨
          strContains (processCedula c attempt (o attempt)).error "captcha" = false
      · exact ⟨attempt, Nat.le_refl _, by omega, by simp [hb]⟩
      · obtain ⟨a, h1, h2, h3⟩ :=
          workerRetry_eq_processCedula o c (fuel + 1) (attempt + 1) (by omega)
        exact ⟨a, by omega, by omega, by simp [hb, h3]⟩

/-- If the first attempt of the window is a success or its error text is
not captcha-classified, the loop stops there. -/
theorem workerRetry_break (o : Nat → PageOutcome) (c : String) (attempt fuel : Nat)
    (h1 : 1 ≤ fuel)
    (hb : (processCedula c attempt (o attempt)).error = "" ∨
          strContains (processCedula c attempt (o attempt)).error "captcha" = false) :
    workerRetry o c attempt fuel = processCedula c attempt (o attempt) := by
  match fuel with
  | 1 => rfl
  | fuel + 2 => rw [workerRetry]; simp [hb]

/-- If every attempt of the window is captcha-classified, the loop runs
the whole window and returns the last attempt's result. -/
theorem workerRetry_exhaust (o : Nat → PageOutcome) (c : String) :
    ∀ (fuel attempt : Nat), 1 ≤ fuel →
      (∀ a, attempt ≤ a → a ≤ attempt + fuel - 1 →
        (processCedula c a (o a)).error ≠ "" ∧
        strContains (processCedula c a (o a)).error "captcha" = true) →
      workerRetry o c attempt fuel =
        processCedula c (attempt + fuel - 1) (o (attempt + fuel - 1))
  | 1, attempt, _, _ => by
      have : attempt + 1 - 1 = attempt := by omega
      rw [this]; rfl
  | fuel + 2, attempt, _, hall => by
      rw [workerRetry]
      have hc := hall attempt (Nat.le_refl _) (by omega)
      have hb : ¬ ((processCedula c attempt (o attempt)).error = "" ∨
          strContains (processCedula c attempt (o attempt)).error "captcha" = false) := by
        simp [hc.1, hc.2]
      rw [if_neg hb]
      have h := workerRetry_exhaust o c (fuel + 1) (attempt + 1) (by omega)
        (fun a ha1 ha2 => hall a (by omega) (by omega))
      have he : attempt + 1 + (fuel + 1) - 1 = attempt + (fuel + 2) - 1 := by omega
      rw [he] at h
      exact h

/-- Embedding of the index map built by `ProcessCedulas`
(src/unnamed/part_000 lines 129-133):

  cedulaIndices := make(map[string]int, len(cedulas))
  for i, cedula := range cedulas \x7b cedulaIndices[cedula] = i \x7d

Insertions happen in input order, a later insertion for the same key
overwriting an earlier one, exactly as Go map assignment does. -/
def cedulaIndices (cedulas : List String) : String → Option Nat :=
  cedulas.enum.foldl (fun m p => fun x => if x = p.2 then some p.1 else m x) (fun _ => none)

/-- Reference recursion computing the index (counted from offset `s`) of
the last occurrence of `x` in a list; used only to reason about
`cedulaIndices`. -/
def lastIdxAux (s : Nat) (x : String) : List String → Option Nat
  | [] => none
  | c :: cs =>
      match lastIdxAux (s + 1) x cs with
      | some i => some i
      | none => if x = c then some s else none

theorem foldl_cedulaIndices_enumFrom (x : String) :
    ∀ (l : List String) (s : Nat) (m : String → Option Nat),
      ((List.enumFrom s l).foldl (fun m p => fun x => if x = p.2 then some p.1 else m x) m) x =
        match lastIdxAux s x l with
        | some i => some i
        | none => m x
  | [], _, _ => rfl
  | c :: cs, s, m => by
      rw [List.enumFrom_cons, List.foldl_cons, foldl_cedulaIndices_enumFrom x cs (s + 1)]
      show (match lastIdxAux (s + 1) x cs with
            | some i => some i
            | none => if x = c then some s else m x) =
           (match (match lastIdxAux (s + 1) x cs with
                   | some i => some i
                   | none => if x = c then some s else none) with
            | some i => some i
            | none => m x)
      cases lastIdxAux (s + 1) x cs with
      | some i => rfl
      | none => by_cases h : x = c <;> simp [h]

theorem cedulaIndices_eq_lastIdxAux (l : List String) (x : String) :
    cedulaIndices l x = lastIdxAux 0 x l := by
  have h := foldl_cedulaIndices_enumFrom x l 0 (fun _ => none)
  have henum : l.enum = List.enumFrom 0 l := rfl
  rw [cedulaIndices, henum, h]
  cases lastIdxAux 0 x l <;> rfl

theorem lastIdxAux_isSome_of_mem (x : String) :
    ∀ (l : List String) (s : Nat), x ∈ l → (lastIdxAux s x l).isSome = true
  | c :: cs, s, hm => by
      rw [lastIdxAux]
      cases hcs : lastIdxAux (s + 1) x cs with
      | some i => rfl
      | none =>
          rcases List.mem_cons.mp hm with h | h
          · simp [h]
          · have := lastIdxAux_isSome_of_mem x cs (s + 1) h
            rw [hcs] at this
            simp at this

theorem lastIdxAux_not_mem (x : String) :
    ∀ (l : List String) (s : Nat), lastIdxAux s x l = none → x ∉ l := by
  intro l s h hm
  have := lastIdxAux_isSome_of_mem x l s hm
  rw [h] at this
  simp at this

theorem lastIdxAux_spec (x : String) :
    ∀ (l : List String) (s m : Nat), lastIdxAux s x l = some m →
      s ≤ m ∧ m - s < l.length ∧ l[m - s]? = some x ∧
        ∀ k, m - s < k → k < l.length → l[k]? ≠ some x
  | c :: cs, s, m, h => by
      rw [lastIdxAux] at h
      cases hcs : lastIdxAux (s + 1) x cs with
      | some i =>
          rw [hcs] at h
          have hi : i = m := by simpa using h
          subst hi
          obtain ⟨h1, h2, h3, h4⟩ := lastIdxAux_spec x cs (s + 1) i hcs
          refine ⟨by omega, by simpa using by omega, ?_, ?_⟩
          · have he : i - s = (i - (s + 1)) + 1 := by omega
            rw [he]
            simpa using h3
          · intro k hk1 hk2
            have hk0 : 1 ≤ k := by omega
            obtain ⟨k', rfl⟩ : ∃ k', k = k' + 1 := ⟨k - 1, by omega⟩
            have : cs[k']? ≠ some x := h4 k' (by omega) (by simpa using hk2)
            simpa using this
      | none =>
          rw [hcs] at h
          by_cases hxc : x = c
          · rw [if_pos hxc] at h
            have hs : s = m := by simpa using h
            subst hs
            have hnm : x ∉ cs := lastIdxAux_not_mem x cs (s + 1) hcs
            refine ⟨Nat.le_refl _, by simp, by simp [hxc], ?_⟩
            intro k hk1 hk2
            obtain ⟨k', rfl⟩ : ∃ k', k = k' + 1 := ⟨k - 1, by omega⟩
            intro hget
            exact hnm (List.getElem?_mem (by simpa using hget))
          · rw [if_neg hxc] at h
            exact absurd h (by simp)

/-- The index map sends an identifier to a valid index holding it, and no
later index holds that identifier: it keeps the last occurrence. -/
theorem cedulaIndices_spec (l : List String) (x : String) (m : Nat)
    (h : cedulaIndices l x = some m) :
    m < l.length ∧ l[m]? = some x ∧ ∀ k, m < k → k < l.length → l[k]? ≠ some x := by
  rw [cedulaIndices_eq_lastIdxAux] at h
  obtain ⟨h1, h2, h3, h4⟩ := lastIdxAux_spec x l 0 m h
  simp only [Nat.sub_zero] at h2 h3 h4
  exact ⟨h2, h3, h4⟩

/-- Any identifier present in the input has an entry in the index map. -/
theorem cedulaIndices_isSome_of_mem (l : List String) (x : String) (hm : x ∈ l) :
    (cedulaIndices l x).isSome = true := by
  rw [cedulaIndices_eq_lastIdxAux]
  exact lastIdxAux_isSome_of_mem x l 0 hm

/-- On an input without duplicates the index map is exactly the position
of the identifier. -/
theorem cedulaIndices_of_nodup (l : List String) (j : Nat) (c : String)
    (hnd : l.Nodup) (hj : l[j]? = some c) :
    cedulaIndices l c = some j := by
  have hmem : c ∈ l := List.getElem?_mem hj
  have hs := cedulaIndices_isSome_of_mem l c hmem
  obtain ⟨m, hm⟩ := Option.isSome_iff_exists.mp hs
  obtain ⟨h1, h2, _⟩ := cedulaIndices_spec l c m hm
  have hjlen : j < l.length := by
    have := List.getElem?_eq_some_iff.mp hj
    exact this.1
  have : m = j := List.getElem?_inj h1 hnd (by rw [h2, hj])
  rw [hm, this]

/-- One step of the result-collector goroutine of `ProcessCedulas`
(src/unnamed/part_000 lines 160-169): a result arriving on the channel is
written into the pre-sized array at the index the map gives for its
cedula, and is dropped when the map has no entry. -/
def collectStep (cedulas : List String) (results : List GoResult) (r : GoResult) : List GoResult :=
  match cedulaIndices cedulas r.cedula with
  | some idx => results.set idx r
  | none => results

/-- The result collector of `ProcessCedulas`: the pre-sized array
`make([]Result, len(cedulas))` of zero values, updated by `collectStep`
for every emitted result, in emission order. -/
def collect (cedulas : List String) (emitted : List GoResult) : List GoResult :=
  emitted.foldl (collectStep cedulas) (List.replicate cedulas.length zeroResult)

theorem foldl_collectStep_length (cedulas : List String) :
    ∀ (emitted : List GoResult) (acc : List GoResult),
      (emitted.foldl (collectStep cedulas) acc).length = acc.length
  | [], _ => rfl
  | r :: es, acc => by
      rw [List.foldl_cons, foldl_collectStep_length cedulas es]
      rw [collectStep]
      cases cedulaIndices cedulas r.cedula <;> simp

/-- The collected array always has one slot per input identifier. -/
theorem collect_length (cedulas : List String) (emitted : List GoResult) :
    (collect cedulas emitted).length = cedulas.length := by
  rw [collect, foldl_collectStep_length]
  simp

/-- Slot `j` of the collected array holds the last emitted result whose
cedula the index map sends to `j`, and the zero value when no emitted
result is sent there. -/
theorem collect_getElem (cedulas : List String) (j : Nat) (hj : j < cedulas.length) :
    ∀ emitted : List GoResult,
      (collect cedulas emitted)[j]? =
        some (((emitted.filter (fun r => cedulaIndices cedulas r.cedula == some j)).getLast?).getD zeroResult) := by
  intro emitted
  induction emitted using List.reverseRecOn with
  | nil => simp [collect, List.getElem?_replicate, hj]
  | append_singleton es r ih =>
      have hstep : collect cedulas (es ++ [r]) = collectStep cedulas (collect cedulas es) r := by
        rw [collect, List.foldl_append, List.foldl_cons, List.foldl_nil]
        rfl
      have hlen : (collect cedulas es).length = cedulas.length := collect_length cedulas es
      rw [hstep, List.filter_append, collectStep]
      cases hidx : cedulaIndices cedulas r.cedula with
      | none =>
          have : (List.filter (fun r => cedulaIndices cedulas r.cedula == some j) [r]) = [] := by
            simp [List.filter, hidx]
          rw [this, List.append_nil, ih]
      | some i =>
          by_cases hij : i = j
          · subst hij
            have hkeep : (List.filter (fun r => cedulaIndices cedulas r.cedula == some i) [r]) = [r] := by
              simp [List.filter, hidx]
            rw [hkeep, List.getLast?_concat]
            simp [List.getElem?_set_self (by omega : i < (collect cedulas es).length)]
          · have hne : (i == j) = false := by simp [hij]
            have hdrop : (List.filter (fun r => cedulaIndices cedulas r.cedula == some j) [r]) = [] := by
              simp [List.filter, hidx, hne]
            rw [hdrop, List.append_nil, List.getElem?_set_ne hij, ih]

/-- Every slot of the collected array is the zero value or one of the
emitted results. -/
theorem mem_foldl_collectStep (cedulas : List String) :
    ∀ (emitted : List GoResult) (acc : List GoResult) (x : GoResult),
      x ∈ emitted.foldl (collectStep cedulas) acc → x ∈ acc ∨ x ∈ emitted
  | [], _, _, h => Or.inl h
  | r :: es, acc, x, h => by
      rw [List.foldl_cons] at h
      rcases mem_foldl_collectStep cedulas es (collectStep cedulas acc r) x h with h1 | h1
      · rw [collectStep] at h1
        cases hidx : cedulaIndices cedulas r.cedula with
        | none => rw [hidx] at h1; exact Or.inl h1
        | some i =>
            rw [hidx] at h1
            rcases List.mem_or_eq_of_mem_set h1 with h2 | h2
            · exact Or.inl h2
            · exact Or.inr (by simp [h2])
      · exact Or.inr (List.mem_cons_of_mem _ h1)

theorem mem_collect (cedulas : List String) (emitted : List GoResult) (x : GoResult)
    (h : x ∈ collect cedulas emitted) : x = zeroResult ∨ x ∈ emitted := by
  rcases mem_foldl_collectStep cedulas emitted _ x h with h1 | h1
  · exact Or.inl (List.eq_of_mem_replicate h1)
  · exact Or.inr h1

/-- The result the Go `worker` emits for every cedula of its shard when
starting the browser for that worker fails (src/unnamed/part_000 lines
195-207): a terminal error result with one recorded attempt. -/
def sessionFailResult (c e : String) : GoResult :=
  { cedula := c, estado := "Error",
    error := "Error iniciando navegador: " ++ e, attempts := 1 }

/-- What one worker emits for one cedula of its shard: the session
startup error result when the browser failed to start, the retry-loop
result otherwise.  `se` is the startup error message if any. -/
def workerEmit (se : Option String) (outcomes : String → Nat → PageOutcome)
    (mr : Nat) (c : String) : GoResult :=
  match se with
  | some e => sessionFailResult c e
  | none => processWithRetries (outcomes c) c mr

/-- Embedding of the Go `worker` body (src/unnamed/part_000 lines
178-236): the list of results the worker sends on the results channel for
its shard, in shard order.  When the browser fails to start every cedula
of the shard gets a `sessionFailResult`; otherwise every cedula goes
through the retry loop.  (The semaphore only throttles execution and the
`Acquire` call on a background context cannot fail, so it is not
modelled.) -/
def workerResults (se : Option String) (outcomes : String → Nat → PageOutcome)
    (mr : Nat) (shard : List String) : List GoResult :=
  match se with
  | some e => shard.map (fun c => sessionFailResult c e)
  | none => shard.map (fun c => processWithRetries (outcomes c) c mr)

theorem workerResults_eq_map (se : Option String) (outcomes : String → Nat → PageOutcome)
    (mr : Nat) (shard : List String) :
    workerResults se outcomes mr shard = shard.map (workerEmit se outcomes mr) := by
  cases se <;> rfl

/-- The shard of worker `i` in `ProcessCedulas` (src/unnamed/part_000
lines 142-157): with cedulasPerBrowser = ceil(N / W), worker `i` owns the
slice of the input from `i * cedulasPerBrowser` of length at most
`cedulasPerBrowser`. -/
def goShard (cedulas : List String) (w i : Nat) : List String :=
  let cpb := (cedulas.length + w - 1) / w
  (cedulas.drop (i * cpb)).take cpb

/-- Embedding of `ProcessCedulas` (src/unnamed/part_000 lines 123-176).
Workers `i` with `i < w` and `i * cedulasPerBrowser < N` are started, one
per shard; the collector goroutine writes every channel result into the
slot the index map gives for its cedula.  Channel arrival order is
modelled as shard concatenation; every theorem proved below about the
final array is insensitive to that choice because with distinct
identifiers each slot is written at most once, and the facts proved about
duplicate inputs concern slots that are never written. -/
def ProcessCedulas (cedulas : List String) (w : Nat) (sessionErr : Nat → Option String)
    (outcomes : String → Nat → PageOutcome) (mr : Nat) : List GoResult :=
  let n := cedulas.length
  let cpb := (n + w - 1) / w
  collect cedulas
    (((List.range w).filterMap (fun i =>
        if i * cpb < n then some (workerResults (sessionErr i) outcomes mr (goShard cedulas w i))
        else none)).flatten)

/-- Generic fact about the Go slicing loop: consecutive slices of width
`cpb` starting at `0, cpb, 2 * cpb, ...`, kept while they start inside
the list, concatenate back to the list, provided `w` slices suffice. -/
theorem flatten_chunks (cpb : Nat) (hc : 1 ≤ cpb) :
    ∀ (w : Nat) (l : List String), l.length ≤ w * cpb →
      ((List.range w).filterMap (fun i =>
          if i * cpb < l.length then some ((l.drop (i * cpb)).take cpb) else none)).flatten = l
  | 0, l, hlen => by
      have : l = [] := List.eq_nil_of_length_eq_zero (by omega)
      simp [this]
  | w + 1, l, hlen => by
      rw [List.range_succ_eq_map, List.filterMap_cons]
      by_cases hnil : l = []
      · subst hnil
        simp
      · have hpos : 0 < l.length := List.length_pos.mpr hnil
        rw [if_pos (by simpa using hpos)]
        have hfm : (List.filterMap
              (fun i => if i * cpb < l.length then some ((l.drop (i * cpb)).take cpb) else none)
              (List.map Nat.succ (List.range w))) =
            (List.filterMap
              (fun i => if i * cpb < (l.drop cpb).length
                then some (((l.drop cpb).drop (i * cpb)).take cpb) else none)
              (List.range w)) := by
          rw [List.filterMap_map]
          apply congrArg (fun f => List.filterMap f (List.range w))
          funext i
          have hcond : (Nat.succ i * cpb < l.length) ↔ (i * cpb < (l.drop cpb).length) := by
            rw [List.length_drop, Nat.succ_mul]
            omega
          have hval : l.drop (Nat.succ i * cpb) = (l.drop cpb).drop (i * cpb) := by
            rw [List.drop_drop, Nat.succ_mul, Nat.add_comm (i * cpb) cpb]
          by_cases h : Nat.succ i * cpb < l.length
          · rw [Function.comp_apply, if_pos h, if_pos (hcond.mp h), hval]
          · rw [Function.comp_apply, if_neg h, if_neg (fun hcc => h (hcond.mpr hcc))]
        have hwc : (w + 1) * cpb = w * cpb + cpb := Nat.succ_mul w cpb
        rw [List.flatten_cons, hfm,
          flatten_chunks cpb hc w (l.drop cpb) (by rw [List.length_drop]; omega)]
        simp [Nat.zero_mul]

/-- The sequence of results sent on the results channel, modelled in
shard order (see `ProcessCedulas`). -/
def goEmitted (cedulas : List String) (w : Nat) (sessionErr : Nat → Option String)
    (outcomes : String → Nat → PageOutcome) (mr : Nat) : List GoResult :=
  ((List.range w).filterMap (fun i =>
      if i * ((cedulas.length + w - 1) / w) < cedulas.length
      then some (workerResults (sessionErr i) outcomes mr (goShard cedulas w i))
      else none)).flatten

theorem ProcessCedulas_eq_collect (cedulas : List String) (w : Nat)
    (sessionErr : Nat → Option String) (outcomes : String → Nat → PageOutcome) (mr : Nat) :
    ProcessCedulas cedulas w sessionErr outcomes mr =
      collect cedulas (goEmitted cedulas w sessionErr outcomes mr) := rfl

/-- The shards started by `ProcessCedulas` concatenate back to the whole
input, in input order. -/
theorem flatten_goShards (cedulas : List String) (w : Nat) (hw : 1 ≤ w) :
    ((List.range w).filterMap (fun i =>
        if i * ((cedulas.length + w - 1) / w) < cedulas.length
        then some (goShard cedulas w i) else none)).flatten = cedulas := by
  by_cases hn : cedulas.length = 0
  · have hnil : cedulas = [] := List.eq_nil_of_length_eq_zero hn
    subst hnil
    simp
  · have hq1 : 1 ≤ (cedulas.length + w - 1) / w := by
      rw [Nat.le_div_iff_mul_le (by omega : 0 < w)]
      omega
    have hdm := Nat.div_add_mod (cedulas.length + w - 1) w
    have hrlt : (cedulas.length + w - 1) % w < w := Nat.mod_lt _ (by omega)
    have hcover : cedulas.length ≤ w * ((cedulas.length + w - 1) / w) := by omega
    have h := flatten_chunks ((cedulas.length + w - 1) / w) hq1 w cedulas hcover
    simpa [goShard] using h

theorem processWithRetries_cedula (o : Nat → PageOutcome) (c : String) (mr : Nat)
    (hmr : 1 ≤ mr) : (processWithRetries o c mr).cedula = c := by
  obtain ⟨a, _, _, h⟩ := workerRetry_eq_processCedula o c mr 1 hmr
  rw [processWithRetries, h, processCedula_cedula]

theorem workerEmit_cedula (se : Option String) (o : String → Nat → PageOutcome) (mr : Nat)
    (c : String) (hmr : 1 ≤ mr) : (workerEmit se o mr c).cedula = c := by
  cases se with
  | some e => rfl
  | none => exact processWithRetries_cedula (o c) c mr hmr

/-- Every result a worker emits records an attempt count of at most the
configured maximum (the session startup result records 1). -/
theorem workerEmit_attempts_le (se : Option String) (o : String → Nat → PageOutcome) (mr : Nat)
    (c : String) (hmr : 1 ≤ mr) : (workerEmit se o mr c).attempts ≤ mr := by
  cases se with
  | some e => exact hmr
  | none =>
      obtain ⟨a, h1, h2, h3⟩ := workerRetry_eq_processCedula (o c) c mr 1 hmr
      rw [workerEmit, processWithRetries, h3, processCedula_attempts]
      omega

theorem workerResults_map_cedula (se : Option String) (o : String → Nat → PageOutcome)
    (mr : Nat) (shard : List String) (hmr : 1 ≤ mr) :
    (workerResults se o mr shard).map (fun r => r.cedula) = shard := by
  rw [workerResults_eq_map, List.map_map]
  have h : ((fun r : GoResult => r.cedula) ∘ workerEmit se o mr) = fun c => c := by
    funext c
    exact workerEmit_cedula se o mr c hmr
  rw [h]
  exact List.map_id' shard

/-- The cedula fields of the emitted results are exactly the input, in
shard order. -/
theorem map_cedula_goEmitted (cedulas : List String) (w : Nat)
    (sessionErr : Nat → Option String) (outcomes : String → Nat → PageOutcome) (mr : Nat)
    (hw : 1 ≤ w) (hmr : 1 ≤ mr) :
    (goEmitted cedulas w sessionErr outcomes mr).map (fun r => r.cedula) = cedulas := by
  rw [goEmitted, List.map_flatten, List.map_filterMap]
  have h : (fun i => (if i * ((cedulas.length + w - 1) / w) < cedulas.length
        then some (workerResults (sessionErr i) outcomes mr (goShard cedulas w i))
        else none).map (List.map (fun r : GoResult => r.cedula))) =
      (fun i => if i * ((cedulas.length + w - 1) / w) < cedulas.length
        then some (goShard cedulas w i) else none) := by
    funext i
    by_cases hcond : i * ((cedulas.length + w - 1) / w) < cedulas.length
    · rw [if_pos hcond, if_pos hcond, Option.map_some',
        workerResults_map_cedula _ _ _ _ hmr]
    · rw [if_neg hcond, if_neg hcond, Option.map_none']
  rw [h]
  exact flatten_goShards cedulas w hw

/-- In a list whose cedula fields have no duplicates, filtering on the
cedula of a member keeps exactly that member. -/
theorem filter_eq_single_of_nodup_map :
    ∀ (L : List GoResult) (r : GoResult), (L.map (fun x => x.cedula)).Nodup → r ∈ L →
      L.filter (fun x => x.cedula == r.cedula) = [r]
  | x :: L, r, hnd, hm => by
      rw [List.map_cons, List.nodup_cons] at hnd
      rcases List.mem_cons.mp hm with h | h
      · subst h
        rw [List.filter_cons, if_pos (by simp)]
        have hnil : L.filter (fun a => a.cedula == r.cedula) = [] := by
          rw [List.filter_eq_nil_iff]
          intro a ha hax
          have hax2 : a.cedula = r.cedula := by simpa using hax
          have hmm : r.cedula ∈ L.map (fun y => y.cedula) := by
            rw [← hax2]
            exact List.mem_map_of_mem _ ha
          exact hnd.1 hmm
        rw [hnil]
      · have hne : (x.cedula == r.cedula) = false := by
          have : r.cedula ∈ L.map (fun y => y.cedula) := List.mem_map_of_mem _ h
          have hx : x.cedula ≠ r.cedula := fun he => hnd.1 (he ▸ this)
          simpa using hx
        rw [List.filter_cons, if_neg (by simp [hne])]
        exact filter_eq_single_of_nodup_map L r hnd.2 h

/-- A member of a shard makes that worker actually start (its slice
starts inside the input). -/
theorem shard_cond_of_mem (cedulas : List String) (w i : Nat) (c : String)
    (hc : c ∈ goShard cedulas w i) :
    i * ((cedulas.length + w - 1) / w) < cedulas.length := by
  by_contra hge
  push_neg at hge
  have hdrop : cedulas.drop (i * ((cedulas.length + w - 1) / w)) = [] :=
    List.drop_eq_nil_of_le hge
  have : goShard cedulas w i = [] := by
    rw [goShard]
    show (cedulas.drop (i * ((cedulas.length + w - 1) / w))).take _ = []
    rw [hdrop, List.take_nil]
  rw [this] at hc
  exact absurd hc (List.not_mem_nil c)

/-- The result a worker emits for a cedula of its shard is among the
emitted results. -/
theorem workerEmit_mem_goEmitted (cedulas : List String) (w : Nat)
    (sessionErr : Nat → Option String) (outcomes : String → Nat → PageOutcome) (mr : Nat)
    (i : Nat) (hi : i < w) (c : String) (hc : c ∈ goShard cedulas w i) :
    workerEmit (sessionErr i) outcomes mr c ∈ goEmitted cedulas w sessionErr outcomes mr := by
  have hL : workerResults (sessionErr i) outcomes mr (goShard cedulas w i) ∈
      (List.range w).filterMap (fun i2 =>
        if i2 * ((cedulas.length + w - 1) / w) < cedulas.length
        then some (workerResults (sessionErr i2) outcomes mr (goShard cedulas w i2))
        else none) := by
    apply List.mem_filterMap.mpr
    exact ⟨i, List.mem_range.mpr hi, by rw [if_pos (shard_cond_of_mem cedulas w i c hc)]⟩
  have hmem : workerEmit (sessionErr i) outcomes mr c ∈
      workerResults (sessionErr i) outcomes mr (goShard cedulas w i) := by
    rw [workerResults_eq_map]
    exact List.mem_map_of_mem _ hc
  exact List.mem_flatten_of_mem hL hmem

/-- Central per-slot fact about the Go pipeline on inputs without
duplicate identifiers: the slot of a cedula belonging to the shard of
worker `i` holds exactly what that worker emits for it. -/
theorem ProcessCedulas_get (cedulas : List String) (w : Nat)
    (sessionErr : Nat → Option String) (outcomes : String → Nat → PageOutcome) (mr : Nat)
    (hw : 1 ≤ w) (hmr : 1 ≤ mr) (hnd : cedulas.Nodup)
    (i : Nat) (hi : i < w) (c : String) (hc : c ∈ goShard cedulas w i)
    (j : Nat) (hj : cedulaIndices cedulas c = some j) :
    (ProcessCedulas cedulas w sessionErr outcomes mr)[j]? =
      some (workerEmit (sessionErr i) outcomes mr c) := by
  obtain ⟨hjlen, hgetj, _⟩ := cedulaIndices_spec cedulas c j hj
  rw [ProcessCedulas_eq_collect, collect_getElem cedulas j hjlen]
  have hpred : ∀ r ∈ goEmitted cedulas w sessionErr outcomes mr,
      (cedulaIndices cedulas r.cedula == some j) = (r.cedula == c) := by
    intro r _
    by_cases hrc : r.cedula = c
    · rw [hrc, hj]
      simp
    · have hno : cedulaIndices cedulas r.cedula ≠ some j := by
        intro hcon
        obtain ⟨_, hg, _⟩ := cedulaIndices_spec cedulas r.cedula j hcon
        exact hrc (Option.some.inj (hg.symm.trans hgetj))
      simp [hno, hrc]
  rw [List.filter_congr hpred]
  have hmem := workerEmit_mem_goEmitted cedulas w sessionErr outcomes mr i hi c hc
  have hfil := filter_eq_single_of_nodup_map (goEmitted cedulas w sessionErr outcomes mr)
    (workerEmit (sessionErr i) outcomes mr c)
    (by rw [map_cedula_goEmitted cedulas w sessionErr outcomes mr hw hmr]; exact hnd) hmem
  rw [workerEmit_cedula (sessionErr i) outcomes mr c hmr] at hfil
  rw [hfil]
  rfl

/-- Every result emitted on the channel has an attempt count of at most
`mr` (when at least one attempt is configured). -/
theorem mem_goEmitted_attempts_le (cedulas : List String) (w : Nat)
    (sessionErr : Nat → Option String) (outcomes : String → Nat → PageOutcome) (mr : Nat)
    (r : GoResult) (hmr : 1 ≤ mr)
    (h : r ∈ goEmitted cedulas w sessionErr outcomes mr) : r.attempts ≤ mr := by
  obtain ⟨l, hl, hrl⟩ := List.mem_flatten.mp h
  obtain ⟨i, _, hif⟩ := List.mem_filterMap.mp hl
  by_cases hcond : i * ((cedulas.length + w - 1) / w) < cedulas.length
  · rw [if_pos hcond] at hif
    have hl2 : l = workerResults (sessionErr i) outcomes mr (goShard cedulas w i) :=
      (Option.some.inj hif).symm
    subst hl2
    rw [workerResults_eq_map] at hrl
    obtain ⟨c, _, hcr⟩ := List.mem_map.mp hrl
    rw [← hcr]
    exact workerEmit_attempts_le (sessionErr i) outcomes mr c hmr
  · rw [if_neg hcond] at hif
    exact absurd hif (by simp)

/-- Embedding of the result objects the JavaScript variants build: a
record of the extracted fields plus the cedula; the error paths of
src/js/main.js fill the name fields with "ERROR" and put the message in
`estado`. -/
structure JsResult where
  cedula : String := ""
  primerApellido : String := ""
  segundoApellido : String := ""
  primerNombre : String := ""
  segundoNombre : String := ""
  estado : String := ""
  deriving Repr, DecidableEq

/-- Embedding of `limitConcurrency` of src/js/main.js (lines 251-278):
each task writes its result into `results` at its own task index when it
completes; the promise resolves with `results` once every task has
completed.  `completionOrder` is the order in which tasks complete, an
abstraction of the scheduling; a slot never completed stays a hole
(`none`).  The concurrency limit only constrains which completion orders
can occur and is therefore not a parameter of the value computed. -/
def limitConcurrency (tasks : List JsResult) (completionOrder : List Nat) :
    List (Option JsResult) :=
  completionOrder.foldl (fun results i => results.set i tasks[i]?)
    (List.replicate tasks.length none)

/-- Embedding of `scrapeDianCedulas` of src/js/main.js (lines 280-332).
The API-key and balance guards mirror the source:

  if (!apiKey) return;
  const balance = await checkBalance(apiKey);
  if (balance === null || balance <= 0) return;

`balance` is `none` when `checkBalance` failed (it returns null) and
`some b` for a parsed numeric balance (parsed float modelled as a
rational).  `outcomes c` is the result `processCedula` of src/js/main.js
produces for cedula `c`; that function catches every error and always
returns a result object, so it is modelled as a total function.
`globalTimeoutFires` tells whether the `Promise.race` of the task pool
against the global timeout is won by the timeout; when it is, the race
rejects, the catch block only logs, and the function returns undefined
(`none`).  Otherwise the collected array is written out and returned. -/
def scrapeDianCedulasJs (cedulas : List String) (apiKey : String) (balance : Option Rat)
    (outcomes : String → JsResult) (completionOrder : List Nat)
    (globalTimeoutFires : Bool) : Option (List (Option JsResult)) :=
  if apiKey = "" then none
  else
    match balance with
    | none => none
    | some b =>
        if b ≤ 0 then none
        else if globalTimeoutFires then none
        else some (limitConcurrency (cedulas.map outcomes) completionOrder)

/-- Embedding of `scrapeDianCedulas` of src/main.js (lines 29-451).  The
guards mirror the source:

  if (!apiKey || apiKey === "YOUR_2CAPTCHA_API_KEY") return;
  const balance = await checkBalance(apiKey);
  if (balance === "0") return;

`balance` is the raw `request` string returned by the balance endpoint
(`none` when the request failed and checkBalance returned null).  The
per-cedula loop pushes one result object per cedula except when solving
the captcha fails, in which case the loop does `continue` and pushes
nothing; `outcomes c = none` models that skip. -/
def scrapeDianCedulasMain (cedulas : List String) (apiKey : String)
    (balance : Option String) (outcomes : String → Option JsResult) :
    Option (List JsResult) :=
  if apiKey = "" ∨ apiKey = "YOUR_2CAPTCHA_API_KEY" then none
  else if balance = some "0" then none
  else some (cedulas.filterMap outcomes)

/-- Behaviour of the index-assignment fold of `limitConcurrency`: a slot
is the written value when its index completes, and keeps its initial
content otherwise. -/
theorem foldl_set_getElem (f : Nat → Option JsResult) :
    ∀ (order : List Nat) (acc : List (Option JsResult)) (j : Nat),
      (order.foldl (fun res i => res.set i (f i)) acc)[j]? =
        if j ∈ order ∧ j < acc.length then some (f j) else acc[j]?
  | [], acc, j => by simp
  | i :: rest, acc, j => by
      rw [List.foldl_cons, foldl_set_getElem f rest (acc.set i (f i)) j, List.length_set]
      by_cases hlen : j < acc.length
      · by_cases hmem : j ∈ rest
        · rw [if_pos ⟨hmem, hlen⟩, if_pos ⟨List.mem_cons_of_mem i hmem, hlen⟩]
        · rw [if_neg (fun hc => hmem hc.1)]
          by_cases hij : i = j
          · subst hij
            rw [List.getElem?_set_self hlen, if_pos ⟨List.mem_cons_self i rest, hlen⟩]
          · rw [List.getElem?_set_ne hij, if_neg (fun hc => by
              rcases List.mem_cons.mp hc.1 with h | h
              · exact hij h.symm
              · exact hmem h)]
      · rw [if_neg (fun hc => hlen hc.2), if_neg (fun hc => hlen hc.2),
          List.getElem?_eq_none (by rw [List.length_set]; omega),
          List.getElem?_eq_none (by omega : acc.length ≤ j)]

/-- When every task index completes (and no out-of-range index occurs),
`limitConcurrency` resolves with the full result list, one entry per
task, in task order. -/
theorem limitConcurrency_complete (tasks : List JsResult) (order : List Nat)
    (hcover : ∀ j, j < tasks.length → j ∈ order) :
    limitConcurrency tasks order = tasks.map some := by
  apply List.ext_getElem?
  intro j
  rw [limitConcurrency, foldl_set_getElem, List.length_replicate]
  by_cases hj : j < tasks.length
  · rw [if_pos ⟨hcover j hj, hj⟩, List.getElem?_map]
    rw [List.getElem?_eq_getElem hj]
    rfl
  · rw [if_neg (fun hc => hj hc.2), List.getElem?_eq_none (by simpa using by omega),
      List.getElem?_eq_none (by rw [List.length_map]; omega)]

/-- One poll of the 2captcha result endpoint as seen by the JavaScript
variants: a success response (status 1, carrying the token), any
non-success response text (status not 1, carrying the `request` string),
or a transport error thrown by axios (timeout or other failure). -/
inductive PollResponse where
  | ok (token : String)
  | text (request : String)
  | httpError
  deriving Repr, DecidableEq

/-- Terminal outcome of a JavaScript poll loop.  `timedOut` is the fall
through after the attempt cap: the token is still null, the code throws
"timed out", its own catch logs, and the caller receives null. -/
inductive SolveOutcome where
  | solved (token : String)
  | unsolvable
  | timedOut
  deriving Repr, DecidableEq

/-- Embedding of the poll loop of `solveTurnstileWith2Captcha` in
src/js/main.js (lines 49-82).  `attempt` is the number of polls already
made, `fuel` the number still allowed (`maxAttempts - attempts` in the
source); the second component of the value is the number of polls made
when the loop ends.  Branches in source order: status 1 is a solve;
"CAPCHA_NOT_READY" continues; a request containing
"ERROR_CAPTCHA_UNSOLVABLE" returns null at once; any other content logs
a warning and continues; a thrown transport error is caught and
continues.  The backoff delay only stretches time and is not modelled.
(A solved empty-string token would be falsy in the source and reported as
timed out; the embedding keeps the token as is, and every theorem below
uses non-empty tokens.) -/
def pollLoopJsAux (responses : Nat → PollResponse) : Nat → Nat → SolveOutcome × Nat
  | attempt, 0 => (.timedOut, attempt)
  | attempt, fuel + 1 =>
      match responses (attempt + 1) with
      | .ok tok => (.solved tok, attempt + 1)
      | .text req =>
          if req = "CAPCHA_NOT_READY" then pollLoopJsAux responses (attempt + 1) fuel
          else if strContains req "ERROR_CAPTCHA_UNSOLVABLE" then (.unsolvable, attempt + 1)
          else pollLoopJsAux responses (attempt + 1) fuel
      | .httpError => pollLoopJsAux responses (attempt + 1) fuel

/-- The poll phase of `solveTurnstileWith2Captcha` of src/js/main.js,
with its attempt cap (20 in the source). -/
def solveTurnstileJsPoll (responses : Nat → PollResponse) (maxAttempts : Nat) :
    SolveOutcome × Nat :=
  pollLoopJsAux responses 0 maxAttempts

/-- Embedding of the poll loop of `solveTurnstileWith2Captcha` in
src/main.js (lines 488-521).  The `throw` for a non-ready non-success
response sits inside the per-poll `try` whose `catch` only logs, so
every response other than a status-1 success makes the loop continue:
there is no mid-loop terminal outcome other than a solve. -/
def pollLoopMainAux (responses : Nat → PollResponse) : Nat → Nat → SolveOutcome × Nat
  | attempt, 0 => (.timedOut, attempt)
  | attempt, fuel + 1 =>
      match responses (attempt + 1) with
      | .ok tok => (.solved tok, attempt + 1)
      | .text _ => pollLoopMainAux responses (attempt + 1) fuel
      | .httpError => pollLoopMainAux responses (attempt + 1) fuel

/-- The poll phase of `solveTurnstileWith2Captcha` of src/main.js, with
its attempt cap (30 in the source). -/
def solveTurnstileMainPoll (responses : Nat → PollResponse) (maxAttempts : Nat) :
    SolveOutcome × Nat :=
  pollLoopMainAux responses 0 maxAttempts

/-- One poll of the 2captcha result endpoint as seen by the Go
`solveCaptcha`: a transport, read or unmarshal failure (all three
`continue`), or a parsed response with its status and request string. -/
inductive GoHttpPoll where
  | fail
  | resp (status : Int) (request : String)
  deriving Repr, DecidableEq

/-- Terminal outcome of the Go poll loop of `solveCaptcha`. -/
inductive GoSolveOutcome where
  | solved (token : String)
  | errorResp (request : String)
  | timeout
  deriving Repr, DecidableEq

/-- Embedding of the poll loop of `solveCaptcha` in src/unnamed/part_000
(lines 436-467): up to 30 polls; a failed request, read, or parse
continues; status 1 returns the token; a request other than
"CAPCHA_NOT_READY" returns an error immediately; otherwise keep
waiting.  The second component counts the polls made. -/
def solveCaptchaLoop (responses : Nat → GoHttpPoll) : Nat → Nat → GoSolveOutcome × Nat
  | polled, 0 => (.timeout, polled)
  | polled, fuel + 1 =>
      match responses (polled + 1) with
      | .fail => solveCaptchaLoop responses (polled + 1) fuel
      | .resp status req =>
          if status = 1 then (.solved req, polled + 1)
          else if req ≠ "CAPCHA_NOT_READY" then (.errorResp req, polled + 1)
          else solveCaptchaLoop responses (polled + 1) fuel

/-- The poll phase of the Go `solveCaptcha`, with its poll cap (30 in
the source). -/
def solveCaptchaGoPoll (responses : Nat → GoHttpPoll) (maxPolls : Nat) :
    GoSolveOutcome × Nat :=
  solveCaptchaLoop responses 0 maxPolls

theorem pollLoopJsAux_timeout (responses : Nat → PollResponse) :
    ∀ (fuel attempt : Nat),
      (∀ a, attempt < a → a ≤ attempt + fuel →
        responses a = PollResponse.text "CAPCHA_NOT_READY" ∨ responses a = PollResponse.httpError) →
      pollLoopJsAux responses attempt fuel = (.timedOut, attempt + fuel)
  | 0, attempt, _ => rfl
  | fuel + 1, attempt, h => by
      rw [pollLoopJsAux]
      rcases h (attempt + 1) (by omega) (by omega) with ha | ha
      · rw [ha]
        have hr := pollLoopJsAux_timeout responses fuel (attempt + 1)
          (fun a h1 h2 => h a (by omega) (by omega))
        simpa [Nat.add_assoc, Nat.add_comm 1 fuel] using hr
      · rw [ha]
        have hr := pollLoopJsAux_timeout responses fuel (attempt + 1)
          (fun a h1 h2 => h a (by omega) (by omega))
        simpa [Nat.add_assoc, Nat.add_comm 1 fuel] using hr

theorem pollLoopMainAux_timeout (responses : Nat → PollResponse) :
    ∀ (fuel attempt : Nat),
      (∀ a, attempt < a → a ≤ attempt + fuel →
        responses a = PollResponse.text "CAPCHA_NOT_READY" ∨ responses a = PollResponse.httpError) →
      pollLoopMainAux responses attempt fuel = (.timedOut, attempt + fuel)
  | 0, attempt, _ => rfl
  | fuel + 1, attempt, h => by
      rw [pollLoopMainAux]
      have hr := pollLoopMainAux_timeout responses fuel (attempt + 1)
        (fun a h1 h2 => h a (by omega) (by omega))
      rcases h (attempt + 1) (by omega) (by omega) with ha | ha <;>
        · rw [ha]
          simpa [Nat.add_assoc, Nat.add_comm 1 fuel] using hr

theorem solveCaptchaLoop_timeout (responses : Nat → GoHttpPoll) :
    ∀ (fuel polled : Nat),
      (∀ a, polled < a → a ≤ polled + fuel →
        responses a = GoHttpPoll.fail ∨
          ∃ st, st ≠ (1 : Int) ∧ responses a = GoHttpPoll.resp st "CAPCHA_NOT_READY") →
      solveCaptchaLoop responses polled fuel = (.timeout, polled + fuel)
  | 0, polled, _ => rfl
  | fuel + 1, polled, h => by
      rw [solveCaptchaLoop]
      have hr := solveCaptchaLoop_timeout responses fuel (polled + 1)
        (fun a h1 h2 => h a (by omega) (by omega))
      rcases h (polled + 1) (by omega) (by omega) with ha | ⟨st, hst, ha⟩
      · rw [ha]
        simpa [Nat.add_assoc, Nat.add_comm 1 fuel] using hr
      · rw [ha]
        have hred : (match GoHttpPoll.resp st "CAPCHA_NOT_READY" with
            | GoHttpPoll.fail => solveCaptchaLoop responses (polled + 1) fuel
            | GoHttpPoll.resp status req =>
              if status = 1 then (GoSolveOutcome.solved req, polled + 1)
              else if req ≠ "CAPCHA_NOT_READY" then (GoSolveOutcome.errorResp req, polled + 1)
              else solveCaptchaLoop responses (polled + 1) fuel) =
          (if st = (1 : Int) then (GoSolveOutcome.solved "CAPCHA_NOT_READY", polled + 1)
           else if ("CAPCHA_NOT_READY" : String) ≠ "CAPCHA_NOT_READY"
            then (GoSolveOutcome.errorResp "CAPCHA_NOT_READY", polled + 1)
            else solveCaptchaLoop responses (polled + 1) fuel) := rfl
        rw [hred, if_neg hst, if_neg (by simp), hr, Prod.mk.injEq]
        exact ⟨rfl, by omega⟩

/-- Trimming of surrounding whitespace — the effect of Go
strings.TrimSpace and of JavaScript String.prototype.trim — defined
structurally on the character list so that concrete instances compute. -/
def trimChars (s : String) : String :=
  ⟨((s.data.dropWhile Char.isWhitespace).reverse.dropWhile Char.isWhitespace).reverse⟩

/-- Embedding of `readCedulasFromExcel` of src/unnamed/part_000 (lines
524-552): rows of the first sheet, as lists of cell strings.  The loop
skips row index 0 (the header), takes the first cell of each non-empty
row, trims surrounding whitespace, and keeps the value only when it is
non-blank. -/
def readCedulasFromExcel (rows : List (List String)) : List String :=
  rows.enum.foldl (fun cedulas p =>
    if p.1 = 0 then cedulas
    else
      match p.2 with
      | [] => cedulas
      | c :: _ =>
          let cedula := trimChars c
          if cedula ≠ "" then cedulas ++ [cedula] else cedulas) []

/-- Embedding of `readCedulasFromExcel` of src/js/main.js (lines
94-100):

  rows.map((row) => String(row[0] || "").trim()).filter(Boolean)

Every row is mapped — including the first —, a missing or empty first
cell becomes "", the value is trimmed, and empty strings are dropped by
the Boolean filter. -/
def readCedulasFromExcelJs (rows : List (List String)) : List String :=
  (rows.map (fun row => trimChars (row.headD ""))).filter (fun s => s != "")

theorem readExcel_foldl_enumFrom :
    ∀ (rows : List (List String)) (s : Nat) (acc : List String), 1 ≤ s →
      ((List.enumFrom s rows).foldl (fun cedulas p =>
          if p.1 = 0 then cedulas
          else
            match p.2 with
            | [] => cedulas
            | c :: _ =>
                let cedula := trimChars c
                if cedula ≠ "" then cedulas ++ [cedula] else cedulas) acc) =
        acc ++ rows.filterMap (fun row =>
          match row with
          | [] => none
          | c :: _ => if trimChars c ≠ "" then some (trimChars c) else none)
  | [], s, acc, _ => by simp
  | row :: rows, s, acc, hs => by
      rw [List.enumFrom_cons, List.foldl_cons]
      have hs0 : ¬ s = 0 := by omega
      rw [readExcel_foldl_enumFrom rows (s + 1) _ (by omega)]
      cases row with
      | nil => rw [List.filterMap_cons]; simp [hs0]
      | cons c rest =>
          rw [List.filterMap_cons]
          by_cases hc : trimChars c ≠ ""
          · simp [hs0, hc, List.append_assoc]
          · simp [hs0, hc]

/-- Every member of the input belongs to the shard of some started
worker. -/
theorem exists_shard_of_mem (cedulas : List String) (w : Nat) (hw : 1 ≤ w) (c : String)
    (hm : c ∈ cedulas) : ∃ i, i < w ∧ c ∈ goShard cedulas w i := by
  have h := flatten_goShards cedulas w hw
  rw [← h] at hm
  obtain ⟨l, hl, hcl⟩ := List.mem_flatten.mp hm
  obtain ⟨i, hir, hif⟩ := List.mem_filterMap.mp hl
  by_cases hcond : i * ((cedulas.length + w - 1) / w) < cedulas.length
  · rw [if_pos hcond] at hif
    exact ⟨i, List.mem_range.mp hir, (Option.some.inj hif) ▸ hcl⟩
  · rw [if_neg hcond] at hif
    exact absurd hif (by simp)

/-- C1 counterexample: on the duplicated input ["7", "7"] — one worker,
every page interaction a success — the Go pipeline leaves slot 0 holding
the zero Result, whose cedula field is "" and not "7": the index map
sends "7" to its last occurrence only, so the run does not place one
Result per input identifier at the index it held. -/
theorem claim_C1_counterexample :
    ((ProcessCedulas ["7", "7"] 1 (fun _ => none)
        (fun _ _ => PageOutcome.success "A" "B" "C" "D" "ok") 3).map (fun r => r.cedula)) =
      ["", "7"] := by decide

/-- C1 amended: for an input without duplicate identifiers the Go run
returns a sequence of the same length as the input in which the slot of
index j holds a Result carrying the j-th input identifier — one Result
per input identifier, at the index it held.  (With duplicates all
occurrences collapse onto the last occurrence's slot and earlier slots
keep the zero Result, see the C9 theorem.) -/
theorem claim_C1_amended_order_preservation (cedulas : List String) (w : Nat)
    (sessionErr : Nat → Option String) (outcomes : String → Nat → PageOutcome) (mr : Nat)
    (hw : 1 ≤ w) (hmr : 1 ≤ mr) (hnd : cedulas.Nodup) :
    (ProcessCedulas cedulas w sessionErr outcomes mr).length = cedulas.length ∧
    ∀ j, j < cedulas.length →
      ((ProcessCedulas cedulas w sessionErr outcomes mr)[j]?).map (fun r => r.cedula) =
        cedulas[j]? := by
  constructor
  · rw [ProcessCedulas_eq_collect]
    exact collect_length _ _
  · intro j hj
    cases hget : cedulas[j]? with
    | none =>
        have := List.getElem?_eq_none_iff.mp hget
        omega
    | some c =>
        have hmem : c ∈ cedulas := List.getElem?_mem hget
        obtain ⟨i, hi, hcs⟩ := exists_shard_of_mem cedulas w hw c hmem
        have hj2 : cedulaIndices cedulas c = some j :=
          cedulaIndices_of_nodup cedulas j c hnd hget
        have h := ProcessCedulas_get cedulas w sessionErr outcomes mr hw hmr hnd i hi c hcs j hj2
        rw [h, Option.map_some', workerEmit_cedula _ _ _ _ hmr]

/-- Witness for the amended C1 on a concrete distinct input. -/
theorem claim_C1_amended_order_preservation_witness :
    (ProcessCedulas ["10", "20"] 2 (fun _ => none)
        (fun _ _ => PageOutcome.success "A" "B" "C" "D" "ok") 3).length =
      (["10", "20"] : List String).length ∧
    ∀ j, j < (["10", "20"] : List String).length →
      ((ProcessCedulas ["10", "20"] 2 (fun _ => none)
          (fun _ _ => PageOutcome.success "A" "B" "C" "D" "ok") 3)[j]?).map (fun r => r.cedula) =
        (["10", "20"] : List String)[j]? :=
  claim_C1_amended_order_preservation ["10", "20"] 2 (fun _ => none)
    (fun _ _ => PageOutcome.success "A" "B" "C" "D" "ok") 3
    (by decide) (by decide) (by decide)

/-- C2: in the Go per-identifier retry loop only a captcha-classified
failure (error text containing "captcha", the classification of the
source) triggers another attempt.  A success or a non-captcha failure on
attempt 1 is terminal immediately: the final Result is that of attempt 1
and records attempts = 1; in particular a navigation or selector-timeout
failure whose message is not captcha-classified records attempts = 1.  A
captcha-classified failure on attempt 1 re-enters the loop at attempt 2
when attempts remain. -/
theorem claim_C2_retry_only_captcha (outcomes : Nat → PageOutcome) (c : String) (mr : Nat)
    (hmr : 1 ≤ mr) :
    ((processCedula c 1 (outcomes 1)).error = "" ∨
        strContains (processCedula c 1 (outcomes 1)).error "captcha" = false →
      processWithRetries outcomes c mr = processCedula c 1 (outcomes 1) ∧
        (processWithRetries outcomes c mr).attempts = 1) ∧
    (∀ m, outcomes 1 = PageOutcome.navError m →
      strContains ("Error al navegar: " ++ m) "captcha" = false →
      (processWithRetries outcomes c mr).attempts = 1) ∧
    ((processCedula c 1 (outcomes 1)).error ≠ "" →
      strContains (processCedula c 1 (outcomes 1)).error "captcha" = true →
      2 ≤ mr →
      processWithRetries outcomes c mr = workerRetry outcomes c 2 (mr - 1)) := by
  refine ⟨?_, ?_, ?_⟩
  · intro hb
    have h := workerRetry_break outcomes c 1 mr hmr hb
    rw [processWithRetries, h]
    exact ⟨rfl, processCedula_attempts c 1 (outcomes 1)⟩
  · intro m hm hnc
    have herr : (processCedula c 1 (outcomes 1)).error = "Error al navegar: " ++ m := by
      rw [hm]
      rfl
    have hb : (processCedula c 1 (outcomes 1)).error = "" ∨
        strContains (processCedula c 1 (outcomes 1)).error "captcha" = false := by
      right
      rw [herr]
      exact hnc
    have h := workerRetry_break outcomes c 1 mr hmr hb
    rw [processWithRetries, h, processCedula_attempts]
  · intro h1 h2 hmr2
    obtain ⟨k, rfl⟩ := Nat.exists_eq_add_of_le hmr2
    rw [processWithRetries]
    have he : 2 + k = k + 2 := by omega
    rw [he, workerRetry]
    rw [if_neg (by rw [h2]; simp [h1])]
    have he2 : k + 2 - 1 = k + 1 := by omega
    rw [he2]

/-- Witness: a navigation failure with the selector-timeout message on
attempt 1 is never retried; with maxRetries 3 the Result records
attempts = 1. -/
theorem claim_C2_retry_only_captcha_witness :
    (processWithRetries (fun _ => PageOutcome.navError "context deadline exceeded")
        "123" 3).attempts = 1 :=
  (claim_C2_retry_only_captcha (fun _ => PageOutcome.navError "context deadline exceeded")
      "123" 3 (by decide)).2.1 "context deadline exceeded" rfl (by decide)

/-- C3: every Result of a Go run records attempts ≤ maxRetries (the zero
Result records 0, a session failure Result records 1, and the retry loop
stops after at most maxRetries attempts); and when every attempt of the
window is captcha-classified, the budget is exhausted and the terminal
Result is that of attempt maxRetries, recording attempts = maxRetries. -/
theorem claim_C3_attempt_bound (cedulas : List String) (w : Nat)
    (sessionErr : Nat → Option String) (outcomes : String → Nat → PageOutcome)
    (oc : Nat → PageOutcome) (c : String) (mr : Nat) (hmr : 1 ≤ mr) :
    (∀ r ∈ ProcessCedulas cedulas w sessionErr outcomes mr, r.attempts ≤ mr) ∧
    ((∀ a, 1 ≤ a → a ≤ mr →
        (processCedula c a (oc a)).error ≠ "" ∧
        strContains (processCedula c a (oc a)).error "captcha" = true) →
      (processWithRetries oc c mr).attempts = mr ∧
      processWithRetries oc c mr = processCedula c mr (oc mr)) := by
  constructor
  · intro r hr
    rw [ProcessCedulas_eq_collect] at hr
    rcases mem_collect _ _ _ hr with h | h
    · rw [h]
      exact Nat.zero_le mr
    · exact mem_goEmitted_attempts_le cedulas w sessionErr outcomes mr r hmr h
  · intro hall
    have h := workerRetry_exhaust oc c mr 1 hmr (fun a ha1 ha2 => hall a ha1 (by omega))
    have he : 1 + mr - 1 = mr := by omega
    rw [he] at h
    rw [processWithRetries, h, processCedula_attempts]
    exact ⟨rfl, rfl⟩

/-- Witness for C3: one identifier whose every attempt fails on the
captcha service; with maxRetries 2 every collected Result records
attempts ≤ 2 and the retry loop records exactly 2 attempts. -/
theorem claim_C3_attempt_bound_witness :
    (∀ r ∈ ProcessCedulas ["9"] 1 (fun _ => none)
        (fun _ _ => PageOutcome.captchaSolveError "err") 2, r.attempts ≤ 2) ∧
    (processWithRetries (fun _ => PageOutcome.captchaSolveError "err") "9" 2).attempts = 2 := by
  have h := claim_C3_attempt_bound ["9"] 1 (fun _ => none)
    (fun _ _ => PageOutcome.captchaSolveError "err")
    (fun _ => PageOutcome.captchaSolveError "err") "9" 2 (by decide)
  refine ⟨h.1, (h.2 ?_).1⟩
  intro a h1 h2
  have herr : (processCedula "9" a (PageOutcome.captchaSolveError "err")).error =
      "Error resolviendo captcha: " ++ "err" := rfl
  constructor
  · rw [herr]
    decide
  · rw [herr]
    decide

/-- C4 counterexample: in the src/js/main.js poll loop an unexpected
poll response ("ERROR_WRONG_USER_KEY": neither a success, nor the
not-ready sentinel, nor the unsolvable sentinel) does not stop polling:
a second poll is issued and its success is returned, instead of the loop
ending with a terminal service-error outcome after one poll. -/
theorem claim_C4_counterexample :
    solveTurnstileJsPoll
      (fun a => if a = 1 then PollResponse.text "ERROR_WRONG_USER_KEY"
                else PollResponse.ok "tok") 20 =
      (SolveOutcome.solved "tok", 2) := by decide

/-- C4 amended: in src/js/main.js an explicit unsolvable poll response is
terminal — polling stops at once and the caller gets the unsolvable
outcome after exactly that poll — but any other unexpected poll content
only logs a warning and polling continues (a following success is still
returned); and in src/main.js the error thrown for unexpected content,
the unsolvable sentinel included, is caught by the per-poll catch, so
polling continues there as well. -/
theorem claim_C4_amended_poll_terminals (resp : Nat → PollResponse) (m : Nat) (s tok : String) :
    (1 ≤ m → resp 1 = PollResponse.text s → s ≠ "CAPCHA_NOT_READY" →
      strContains s "ERROR_CAPTCHA_UNSOLVABLE" = true →
      solveTurnstileJsPoll resp m = (SolveOutcome.unsolvable, 1)) ∧
    (2 ≤ m → resp 1 = PollResponse.text s → s ≠ "CAPCHA_NOT_READY" →
      strContains s "ERROR_CAPTCHA_UNSOLVABLE" = false → resp 2 = PollResponse.ok tok →
      solveTurnstileJsPoll resp m = (SolveOutcome.solved tok, 2)) ∧
    (2 ≤ m → resp 1 = PollResponse.text s → resp 2 = PollResponse.ok tok →
      solveTurnstileMainPoll resp m = (SolveOutcome.solved tok, 2)) := by
  refine ⟨?_, ?_, ?_⟩
  · intro hm h1 hs hcont
    obtain ⟨k, rfl⟩ := Nat.exists_eq_add_of_le hm
    rw [solveTurnstileJsPoll]
    have he : 1 + k = k + 1 := by omega
    rw [he, pollLoopJsAux]
    simp [h1, hs, hcont]
  · intro hm h1 hs hcont h2
    obtain ⟨k, rfl⟩ := Nat.exists_eq_add_of_le hm
    rw [solveTurnstileJsPoll]
    have he : 2 + k = (k + 1) + 1 := by omega
    rw [he, pollLoopJsAux]
    simp only [Nat.zero_add, h1]
    rw [if_neg hs, if_neg (by rw [hcont]; simp)]
    rw [pollLoopJsAux]
    simp [h2]
  · intro hm h1 h2
    obtain ⟨k, rfl⟩ := Nat.exists_eq_add_of_le hm
    rw [solveTurnstileMainPoll]
    have he : 2 + k = (k + 1) + 1 := by omega
    rw [he, pollLoopMainAux]
    simp only [Nat.zero_add, h1]
    rw [pollLoopMainAux]
    simp [h2]

/-- Witness for the amended C4: the unsolvable sentinel stops the
src/js/main.js loop after one poll; another error text does not stop it
and the second poll's success is returned. -/
theorem claim_C4_amended_poll_terminals_witness :
    solveTurnstileJsPoll (fun _ => PollResponse.text "ERROR_CAPTCHA_UNSOLVABLE") 20 =
      (SolveOutcome.unsolvable, 1) ∧
    solveTurnstileMainPoll
      (fun a => if a = 1 then PollResponse.text "ERROR_CAPTCHA_UNSOLVABLE"
                else PollResponse.ok "tok") 30 =
      (SolveOutcome.solved "tok", 2) :=
  ⟨(claim_C4_amended_poll_terminals (fun _ => PollResponse.text "ERROR_CAPTCHA_UNSOLVABLE")
      20 "ERROR_CAPTCHA_UNSOLVABLE" "").1 (by decide) rfl (by decide) (by decide),
   (claim_C4_amended_poll_terminals
      (fun a => if a = 1 then PollResponse.text "ERROR_CAPTCHA_UNSOLVABLE"
                else PollResponse.ok "tok")
      30 "ERROR_CAPTCHA_UNSOLVABLE" "tok").2.2 (by decide) (by decide) (by decide)⟩

/-- C5: when no poll ever gets a terminal response — every poll sees the
not-ready sentinel or a transport failure — each of the three challenge
solver clients polls exactly maxPollAttempts times and then returns its
timeout outcome; the second component of each value counts the polls
made, so the timeout comes neither earlier nor later. -/
theorem claim_C5_poll_timeout (rj rm : Nat → PollResponse) (rg : Nat → GoHttpPoll)
    (mj mm mg : Nat)
    (hj : ∀ a, 1 ≤ a → a ≤ mj →
      rj a = PollResponse.text "CAPCHA_NOT_READY" ∨ rj a = PollResponse.httpError)
    (hm : ∀ a, 1 ≤ a → a ≤ mm →
      rm a = PollResponse.text "CAPCHA_NOT_READY" ∨ rm a = PollResponse.httpError)
    (hg : ∀ a, 1 ≤ a → a ≤ mg →
      rg a = GoHttpPoll.fail ∨
        ∃ st, st ≠ (1 : Int) ∧ rg a = GoHttpPoll.resp st "CAPCHA_NOT_READY") :
    solveTurnstileJsPoll rj mj = (SolveOutcome.timedOut, mj) ∧
    solveTurnstileMainPoll rm mm = (SolveOutcome.timedOut, mm) ∧
    solveCaptchaGoPoll rg mg = (GoSolveOutcome.timeout, mg) := by
  refine ⟨?_, ?_, ?_⟩
  · have h := pollLoopJsAux_timeout rj mj 0 (fun a h1 h2 => hj a (by omega) (by omega))
    simpa [solveTurnstileJsPoll] using h
  · have h := pollLoopMainAux_timeout rm mm 0 (fun a h1 h2 => hm a (by omega) (by omega))
    simpa [solveTurnstileMainPoll] using h
  · have h := solveCaptchaLoop_timeout rg mg 0 (fun a h1 h2 => hg a (by omega) (by omega))
    simpa [solveCaptchaGoPoll] using h

/-- Witness for C5 with the source attempt caps: 20 polls in
src/js/main.js, 30 in src/main.js, 30 in the Go solveCaptcha. -/
theorem claim_C5_poll_timeout_witness :
    solveTurnstileJsPoll (fun _ => PollResponse.text "CAPCHA_NOT_READY") 20 =
      (SolveOutcome.timedOut, 20) ∧
    solveTurnstileMainPoll (fun _ => PollResponse.text "CAPCHA_NOT_READY") 30 =
      (SolveOutcome.timedOut, 30) ∧
    solveCaptchaGoPoll (fun _ => GoHttpPoll.resp 0 "CAPCHA_NOT_READY") 30 =
      (GoSolveOutcome.timeout, 30) :=
  claim_C5_poll_timeout (fun _ => PollResponse.text "CAPCHA_NOT_READY")
    (fun _ => PollResponse.text "CAPCHA_NOT_READY")
    (fun _ => GoHttpPoll.resp 0 "CAPCHA_NOT_READY") 20 30 30
    (fun a h1 h2 => Or.inl rfl) (fun a h1 h2 => Or.inl rfl)
    (fun a h1 h2 => Or.inr ⟨0, by decide, rfl⟩)

/-- C6 counterexample: when the global deadline of src/js/main.js fires,
scrapeDianCedulas catches the rejected Promise.race and returns
undefined: no Result sequence is returned at all, and the unfinished
task is not recorded as an Error Result. -/
theorem claim_C6_counterexample :
    scrapeDianCedulasJs ["1"] "key" (some 1)
      (fun c => { cedula := c, estado := "ok" }) [0] true = none := by decide

/-- C6 amended: the per-identifier worker of src/js/main.js catches
every error and always produces a result object (it is embedded as a
total function), and when the task pool finishes before the global
deadline the run returns a full sequence with exactly one entry per
input identifier, in input order.  When the global deadline fires first,
however, the function catches the rejection and returns undefined: the
unfinished tasks are not recorded as Error Results (see the
counterexample). -/
theorem claim_C6_amended_full_sequence (cedulas : List String) (apiKey : String) (b : Rat)
    (outcomes : String → JsResult) (order : List Nat)
    (hk : apiKey ≠ "") (hb : 0 < b)
    (hcover : ∀ j, j < cedulas.length → j ∈ order) :
    scrapeDianCedulasJs cedulas apiKey (some b) outcomes order false =
      some ((cedulas.map outcomes).map some) ∧
    ((cedulas.map outcomes).map some).length = cedulas.length := by
  constructor
  · have hble : ¬ b ≤ 0 := not_le.mpr hb
    rw [scrapeDianCedulasJs, if_neg hk]
    show (if b ≤ 0 then none
          else if (false : Bool) then none
          else some (limitConcurrency (cedulas.map outcomes) order)) =
      some ((cedulas.map outcomes).map some)
    rw [if_neg hble, if_neg (by simp)]
    rw [limitConcurrency_complete (cedulas.map outcomes) order
      (fun j hj => hcover j (by simpa using hj))]
  · simp

/-- Witness for the amended C6 on a one-identifier input. -/
theorem claim_C6_amended_full_sequence_witness :
    scrapeDianCedulasJs ["a"] "k" (some 1)
        (fun c => { cedula := c, estado := "ok" }) [0] false =
      some (((["a"] : List String).map
        (fun c => ({ cedula := c, estado := "ok" } : JsResult))).map some) ∧
    (((["a"] : List String).map
        (fun c => ({ cedula := c, estado := "ok" } : JsResult))).map some).length =
      (["a"] : List String).length := by
  apply claim_C6_amended_full_sequence
  · decide
  · norm_num
  · intro j hj
    simp only [List.length_singleton] at hj
    have : j = 0 := by omega
    simp [this]

/-- C7: with distinct identifiers, every identifier in the shard of a
worker whose session failed to start is recorded at its input slot as
the terminal session startup Error Result — attempts 1, never retried —
while an identifier in the shard of a worker whose session started gets
its retry-loop result: the other workers proceed independently. -/
theorem claim_C7_session_failure_isolation (cedulas : List String) (w : Nat)
    (sessionErr : Nat → Option String) (outcomes : String → Nat → PageOutcome) (mr : Nat)
    (hw : 1 ≤ w) (hmr : 1 ≤ mr) (hnd : cedulas.Nodup)
    (i : Nat) (hi : i < w) (c : String) (hc : c ∈ goShard cedulas w i)
    (j : Nat) (hj : cedulaIndices cedulas c = some j) :
    (∀ e, sessionErr i = some e →
      (ProcessCedulas cedulas w sessionErr outcomes mr)[j]? =
        some (sessionFailResult c e) ∧
      (sessionFailResult c e).attempts = 1 ∧ (sessionFailResult c e).estado = "Error") ∧
    (sessionErr i = none →
      (ProcessCedulas cedulas w sessionErr outcomes mr)[j]? =
        some (processWithRetries (outcomes c) c mr)) := by
  have h := ProcessCedulas_get cedulas w sessionErr outcomes mr hw hmr hnd i hi c hc j hj
  constructor
  · intro e he
    rw [he] at h
    exact ⟨h, rfl, rfl⟩
  · intro he
    rw [he] at h
    exact h

/-- Witness for C7: two workers over ["10", "20"]; worker 0's browser
fails to start, so slot 0 gets the session startup Error Result with one
attempt. -/
theorem claim_C7_session_failure_isolation_witness :
    (ProcessCedulas ["10", "20"] 2 (fun i => if i = 0 then some "boom" else none)
        (fun _ _ => PageOutcome.success "A" "B" "C" "D" "ok") 3)[0]? =
      some (sessionFailResult "10" "boom") ∧
    (sessionFailResult "10" "boom").attempts = 1 ∧
    (sessionFailResult "10" "boom").estado = "Error" :=
  (claim_C7_session_failure_isolation ["10", "20"] 2
      (fun i => if i = 0 then some "boom" else none)
      (fun _ _ => PageOutcome.success "A" "B" "C" "D" "ok") 3
      (by decide) (by decide) (by decide) 0 (by decide) "10" (by decide)
      0 (by decide)).1 "boom" rfl

/-- C8 counterexample: the reader of src/js/main.js does not skip the
first row.  On a sheet whose header row is ["cedula"] followed by
["123"] it returns the header value too, while the Go reader skips it. -/
theorem claim_C8_counterexample :
    readCedulasFromExcelJs [["cedula"], ["123"]] = ["cedula", "123"] ∧
    readCedulasFromExcel [["cedula"], ["123"]] = ["123"] := by decide

/-- C8 amended: the Go reader treats the first row as a header and skips
it, takes the first cell of each later non-empty row trimmed of
surrounding whitespace, and drops blank values; the src/js/main.js
reader takes the trimmed first cell of every row — the first row
included — and drops blanks, so it does not skip the header. -/
theorem claim_C8_amended_reader (hdr : List String) (rest : List (List String))
    (row : List String) (rows : List (List String)) :
    readCedulasFromExcel (hdr :: rest) =
      rest.filterMap (fun r =>
        match r with
        | [] => none
        | c :: _ => if trimChars c ≠ "" then some (trimChars c) else none) ∧
    readCedulasFromExcelJs (row :: rows) =
      (if trimChars (row.headD "") ≠ "" then [trimChars (row.headD "")] else []) ++
        readCedulasFromExcelJs rows := by
  constructor
  · show (List.enumFrom 1 rest).foldl (fun cedulas p =>
        if p.1 = 0 then cedulas
        else
          match p.2 with
          | [] => cedulas
          | c :: _ =>
              let cedula := trimChars c
              if cedula ≠ "" then cedulas ++ [cedula] else cedulas) [] = _
    rw [readExcel_foldl_enumFrom rest 1 [] (Nat.le_refl 1), List.nil_append]
  · rw [readCedulasFromExcelJs, List.map_cons, List.filter_cons]
    by_cases hc : trimChars (row.headD "") = ""
    · rw [if_neg (by simpa using hc), if_neg (by simpa using hc)]
      rfl
    · rw [if_pos (by simpa using hc), if_pos (by simpa using hc)]
      rfl

/-- C9: the Go identifier-to-index map keeps the index of the last
occurrence of each identifier (characterized below: the mapped index
holds the identifier and no later index does), so no collector write
ever targets the slot of an earlier occurrence of a duplicated
identifier, and that slot of the final array stays the zero-valued
Result under every emission sequence. -/
theorem claim_C9_duplicate_last_wins (cedulas : List String) (i j : Nat)
    (hij : i < j) (hjlen : j < cedulas.length) (hdup : cedulas[i]? = cedulas[j]?)
    (emitted : List GoResult) :
    (∀ c m, cedulaIndices cedulas c = some m →
      cedulas[m]? = some c ∧ ∀ k, m < k → k < cedulas.length → cedulas[k]? ≠ some c) ∧
    (∀ x, cedulaIndices cedulas x ≠ some i) ∧
    (collect cedulas emitted)[i]? = some zeroResult := by
  have hnotidx : ∀ x, cedulaIndices cedulas x ≠ some i := by
    intro x hx
    obtain ⟨h1, h2, h3⟩ := cedulaIndices_spec cedulas x i hx
    have h2j : cedulas[j]? = some x := by
      rw [← hdup]
      exact h2
    exact h3 j hij hjlen h2j
  refine ⟨?_, hnotidx, ?_⟩
  · intro c m hm
    obtain ⟨h1, h2, h3⟩ := cedulaIndices_spec cedulas c m hm
    exact ⟨h2, h3⟩
  · have hi_lt : i < cedulas.length := by omega
    rw [collect_getElem cedulas i hi_lt]
    have hfil : emitted.filter (fun r => cedulaIndices cedulas r.cedula == some i) = [] := by
      rw [List.filter_eq_nil_iff]
      intro r _ hcon
      exact hnotidx r.cedula (by simpa using hcon)
    rw [hfil]
    rfl

/-- Witness for C9 on the duplicated input ["5", "6", "5"]: nothing maps
to index 0 and slot 0 stays the zero Result even after a result for "5"
is collected. -/
theorem claim_C9_duplicate_last_wins_witness :
    (∀ c m, cedulaIndices ["5", "6", "5"] c = some m →
      ["5", "6", "5"][m]? = some c ∧
      ∀ k, m < k → k < (["5", "6", "5"] : List String).length →
        ["5", "6", "5"][k]? ≠ some c) ∧
    (∀ x, cedulaIndices ["5", "6", "5"] x ≠ some 0) ∧
    (collect ["5", "6", "5"] [{ cedula := "5", estado := "ok" }])[0]? = some zeroResult :=
  claim_C9_duplicate_last_wins ["5", "6", "5"] 0 2 (by decide) (by decide) (by decide)
    [{ cedula := "5", estado := "ok" }]

/-- C10: both JavaScript variants return before launching a browser and
process no identifier when the balance check reports no funds —
src/main.js when the returned balance string is exactly "0", and
src/js/main.js when the parsed balance is null or non-positive; in both
cases the run yields no Results, for every input and every oracle. -/
theorem claim_C10_no_funds_guard (cedulas cedulas2 : List String) (apiKey apiKey2 : String)
    (outcomesM : String → Option JsResult) (outcomesJ : String → JsResult)
    (order : List Nat) (gtf : Bool) (b : Option Rat) :
    (scrapeDianCedulasMain cedulas apiKey (some "0") outcomesM = none) ∧
    (b = none ∨ (∃ x, b = some x ∧ x ≤ 0) →
      scrapeDianCedulasJs cedulas2 apiKey2 b outcomesJ order gtf = none) := by
  constructor
  · rw [scrapeDianCedulasMain]
    by_cases hk : apiKey = "" ∨ apiKey = "YOUR_2CAPTCHA_API_KEY"
    · rw [if_pos hk]
    · rw [if_neg hk, if_pos rfl]
  · intro hb
    by_cases hk : apiKey2 = ""
    · rw [scrapeDianCedulasJs.eq_def, if_pos hk]
    · rcases hb with hb | ⟨x, hbx, hx⟩
      · rw [hb, scrapeDianCedulasJs, if_neg hk]
      · rw [hbx, scrapeDianCedulasJs, if_neg hk]
        show (if x ≤ 0 then none
              else if (gtf : Bool) then none
              else some (limitConcurrency (cedulas2.map outcomesJ) order)) = none
        rw [if_pos hx]

/-- Witness for C10: a "0" balance string stops the src/main.js run and
a negative parsed balance stops the src/js/main.js run, before any
identifier is processed. -/
theorem claim_C10_no_funds_guard_witness :
    (scrapeDianCedulasMain ["1"] "key" (some "0") (fun c => some { cedula := c }) = none) ∧
    (scrapeDianCedulasJs ["1"] "key" (some (-2)) (fun c => { cedula := c }) [0] false = none) :=
  ⟨(claim_C10_no_funds_guard ["1"] ["1"] "key" "key" (fun c => some { cedula := c })
      (fun c => { cedula := c }) [0] false (some (-2))).1,
   (claim_C10_no_funds_guard ["1"] ["1"] "key" "key" (fun c => some { cedula := c })
      (fun c => { cedula := c }) [0] false (some (-2))).2
     (Or.inr ⟨-2, rfl, by norm_num⟩)⟩
